import Mathlib

/-!
Verification development for uhttpd's Lua request-dispatch plugin (lua.c).

The C file is embedded shallowly:
  * C strings are `List Char`; table keys pushed with `lua_setfield` are
    Lean `String` literals.
  * the Lua stack / globals touched by the binding are a small machine
    (`Machine`, `runOp`) over symbolic Lua values (`LuaVal`);
  * `uh_lua_recv`'s read(2) loop is a recursion over a finite trace of
    read results (`ReadEvent`); `none` means the trace ended before the
    loop exited;
  * process exit is `Except ExitInfo`, stdout output is an explicit
    `List Char` field, and the sequence of Lua API calls performed per
    request is recorded as a `List LuaOp` trace.
-/

/-- LUAL_BUFFERSIZE of the embedded Lua 5.1 (BUFSIZ of the platform libc). -/
def LUAL_BUFFERSIZE : Nat := 8192

/-- Lua 5.1 status code for runtime errors of `lua_pcall`. -/
def LUA_ERRRUN : Nat := 2

/-- Lua 5.1 status code for memory allocation errors of `lua_pcall`. -/
def LUA_ERRMEM : Nat := 4

/-- File descriptor 0, as used by `uh_lua_recv`'s `read` calls. -/
def STDIN_FILENO : Nat := 0

/-- The errno values distinguished by `uh_lua_recv`. -/
inductive Errno where
  | EWOULDBLOCK
  | EAGAIN
  | EINTR
  | other
deriving DecidableEq

/-- One result of the `read(STDIN_FILENO, buf, LUAL_BUFFERSIZE)` call in
`uh_lua_recv`: either `r ≥ 0` bytes were returned (`data`, with `data []`
standing for the end-of-file return `r = 0`), or `r < 0` with an errno and
the outcome of the subsequent `poll` (`pollin` is `revents & POLLIN`). -/
inductive ReadEvent where
  | data (bytes : List Char)
  | err (e : Errno) (pollin : Bool)
deriving DecidableEq

/-- A failed read is retried (the C loop `continue`s) exactly when errno is
EWOULDBLOCK/EAGAIN and the poll reported data ready, or errno is EINTR
(lua.c lines 57-65). Successful reads never match here. -/
def retryable : ReadEvent → Bool
  | .err e pollin => (((e == .EWOULDBLOCK) || (e == .EAGAIN)) && pollin) || (e == .EINTR)
  | .data _ => false

/-- Events on which the C loop `break`s (or, for a full buffer, does not):
end-of-file, a short read, or a non-retryable read error. -/
def stopsLoop : ReadEvent → Bool
  | .data bytes => bytes.length != LUAL_BUFFERSIZE
  | .err e pollin => !(retryable (.err e pollin))

/-- The `while(len > 0)` loop of `uh_lua_recv` (lua.c lines 52-78).
State: `acc` is the luaL_Buffer contents, `data_len` the C `data_len`
accumulator. Returns the buffer and `data_len` at loop exit, or `none`
when the event trace is exhausted while the loop would keep reading. -/
def recvLoop (len : Int) (acc : List Char) (data_len : Int) :
    List ReadEvent → Option (List Char × Int)
  | [] => if 0 < len then none else some (acc, data_len)
  | ev :: evs =>
    if 0 < len then
      match ev with
      | .data bytes =>
        if bytes.length = 0 then
          some (acc, data_len)
        else if bytes.length = LUAL_BUFFERSIZE then
          recvLoop len (acc ++ bytes) (data_len + bytes.length) evs
        else
          some (acc ++ bytes, data_len + bytes.length)
      | .err e pollin =>
        if retryable (.err e pollin) then
          recvLoop len acc data_len evs
        else
          some (acc, if data_len = 0 then -1 else data_len)
    else some (acc, data_len)

/-- The C functions pushed with `lua_pushcfunction` (plus the stdlib
`print` fetched with `lua_getglobal`) in `uh_lua_state_init`. -/
inductive CFun where
  | print
  | uh_lua_recv
  | uh_lua_urldecode
  | uh_lua_urlencode
deriving DecidableEq

/-- The Lua values the binding layer stores in tables. -/
inductive LuaVal where
  | nil
  | str (s : List Char)
  | num (q : Rat)
  | cfunction (f : CFun)
  | table (fields : List (String × LuaVal))

/-- Whether a Lua value is a string. -/
def LuaVal.isStr : LuaVal → Bool
  | .str _ => true
  | _ => false

/-- Model of `uh_lua_recv` (lua.c lines 39-90): run the read loop, then
return the list of Lua values the C function leaves for the caller, in
return order. After the loop the buffer string is pushed, then the number
`data_len`; when `data_len > 0`, `lua_pushvalue(L, -2)` followed by
`lua_remove(L, -3)` (lines 83-84) reorders the stack to [count, string],
so the two returned values are the byte count first and the data string
second; otherwise the string is removed and the single returned value is
the number `data_len` (lines 87-88). -/
def uh_lua_recv (len : Int) (events : List ReadEvent) : Option (List LuaVal) :=
  match recvLoop len [] 0 events with
  | none => none
  | some (buf, d) =>
    if 0 < d then some [.num (d : Rat), .str buf] else some [.num (d : Rat)]

/-- Model of `uh_lua_recv` as a function of the whole file-descriptor
world: the C code only ever reads `STDIN_FILENO`. -/
def uh_lua_recv_world (fds : Nat → List ReadEvent) (len : Int) : Option (List LuaVal) :=
  uh_lua_recv len (fds STDIN_FILENO)

/-- A Lua table restricted to string keys, as built by `lua_setfield`. -/
abbrev EnvT := List (String × LuaVal)

/-- Table lookup (first matching key). -/
def tget (e : EnvT) (k : String) : Option LuaVal :=
  match e with
  | [] => none
  | (k', v) :: rest => if k' = k then some v else tget rest k

/-- Table update as performed by `lua_setfield`: overwrite the existing
entry for the key, or append a new one. -/
def tset (e : EnvT) (k : String) (v : LuaVal) : EnvT :=
  match e with
  | [] => [(k, v)]
  | (k', v') :: rest => if k' = k then (k, v) :: rest else (k', v') :: tset rest k v

/-- Update the table sitting at position `i` of a value stack (no-op when
the slot does not hold a table, which never happens in the traced code). -/
def setAt (st : List LuaVal) (i : Nat) (k : String) (v : LuaVal) : List LuaVal :=
  match st, i with
  | [], _ => []
  | x :: rest, 0 =>
    (match x with
     | .table fs => .table (tset fs k v)
     | other => other) :: rest
  | x :: rest, i + 1 => x :: setAt rest i k v

/-- Model of `lua_setfield(L, idx, k)` for negative `idx`: pop the value on top and
store it under key `k` in the table at stack index `idx`. -/
def lua_setfield_stack (st : List LuaVal) (idx : Int) (k : String) : List LuaVal :=
  match st with
  | [] => []
  | v :: rest => setAt rest ((-idx).toNat - 2) k v

/-- The Lua C API calls issued by this plugin, recorded as a trace. -/
inductive LuaOp where
  | newtable
  | getglobal (name : String)
  | pushvalue
  | pushcfunction (f : CFun)
  | pushstring (s : List Char)
  | pushlstring (s : List Char)
  | pushnumber (q : Rat)
  | setfield (idx : Int) (key : String)
  | setglobal (name : String)
  | loadfile (path : List Char)
  | pcall (nargs nresults : Nat)

/-- Whether an op is a `luaL_loadfile` call. -/
def isLoadfileOp : LuaOp → Bool
  | .loadfile _ => true
  | _ => false

/-- Whether an op is a `lua_pcall` call. -/
def isPcallOp : LuaOp → Bool
  | .pcall _ _ => true
  | _ => false

/-- The ops `lua_main` uses to populate the fresh environment table:
pushes of a value followed by `lua_setfield(L, -2, key)`. -/
def isEnvBuildOp : LuaOp → Bool
  | .pushstring _ => true
  | .pushlstring _ => true
  | .pushnumber _ => true
  | .setfield _ _ => true
  | _ => false

/-- The fragment of interpreter state the table-building code touches. -/
structure Machine where
  stack : List LuaVal
  globals : EnvT

/-- State after `lua_open(); luaL_openlibs(L)`, restricted to the only
stdlib binding this file reads (`print`). -/
def machine0 : Machine :=
  { stack := [], globals := [("print", .cfunction .print)] }

/-- Effect of one Lua API call on the machine. `loadfile` and `pcall`
execute scripts; their control-flow effect is handled in
`uh_lua_state_init` / `lua_main`, so on the machine they are no-ops. -/
def runOp (m : Machine) : LuaOp → Machine
  | .newtable => { m with stack := .table [] :: m.stack }
  | .getglobal n => { m with stack := ((tget m.globals n).getD .nil) :: m.stack }
  | .pushvalue =>
    match m.stack with
    | v :: rest => { m with stack := v :: v :: rest }
    | [] => m
  | .pushcfunction f => { m with stack := .cfunction f :: m.stack }
  | .pushstring s => { m with stack := .str s :: m.stack }
  | .pushlstring s => { m with stack := .str s :: m.stack }
  | .pushnumber q => { m with stack := .num q :: m.stack }
  | .setfield idx k => { m with stack := lua_setfield_stack m.stack idx k }
  | .setglobal n =>
    match m.stack with
    | v :: rest => { stack := rest, globals := tset m.globals n v }
    | [] => m
  | .loadfile _ => m
  | .pcall _ _ => m

/-- The exact sequence of API calls building the global `uhttpd` table
(lua.c lines 139-162). -/
def uh_lua_api_ops (docroot : List Char) : List LuaOp :=
  [ .newtable,
    .getglobal "print", .pushvalue, .setfield (-3) "send", .setfield (-2) "sendc",
    .pushcfunction .uh_lua_recv, .setfield (-2) "recv",
    .pushcfunction .uh_lua_urldecode, .setfield (-2) "urldecode",
    .pushcfunction .uh_lua_urlencode, .setfield (-2) "urlencode",
    .pushstring docroot, .setfield (-2) "docroot",
    .setglobal "uhttpd" ]

/-- One entry of the array returned by `ops->get_process_vars`; `value`
is `none` for a NULL value pointer (such entries are skipped). -/
structure env_var where
  name : String
  value : Option (List Char)

/-- The external outcomes `uh_lua_state_init` depends on: the conf
strings, the return values of `luaL_loadfile` and of the initialization
`lua_pcall`, the error object left on the stack on failure, and whether
the global `handle_request` is a function. -/
structure InitInput where
  docroot : List Char
  lua_handler : List Char
  loadfile_ret : Nat
  pcall_ret : Nat
  err_is_nil : Bool
  err_msg : List Char
  cb_is_function : Bool

/-- A process exit: status code and the message printed to stderr. -/
structure ExitInfo where
  code : Nat
  message : List Char

/-- Result of `uh_lua_state_init`: the trace of Lua API calls, the
machine state after the table build, and either a normal return or a
process exit. -/
structure InitResult where
  trace : List LuaOp
  machine : Machine
  outcome : Except ExitInfo Unit

/-- The stderr line `"Error %s Lua handler: %s\n"` (lua.c line 188),
with `msg` defaulting to "(unknown error)" when the stack top is nil. -/
def init_error_out (status : String) (i : InitInput) : List Char :=
  ("Error ").toList ++ status.toList ++ (" Lua handler: ").toList ++
  (if i.err_is_nil then ("(unknown error)").toList else i.err_msg) ++ ("\n").toList

/-- Machine state after the table-building block of `uh_lua_state_init`
(lua.c lines 135-162). -/
def uh_lua_state_machine (i : InitInput) : Machine :=
  (uh_lua_api_ops i.docroot).foldl runOp machine0

/-- Model of `uh_lua_state_init` (lua.c lines 128-191): build the `uhttpd` API
table, load the handler script, run it once, and check that it defined a
`handle_request` function; any failure prints to stderr and exits 1. -/
def uh_lua_state_init (i : InitInput) : InitResult :=
  if i.loadfile_ret ≠ 0 then
    { trace := uh_lua_api_ops i.docroot ++ [.loadfile i.lua_handler],
      machine := uh_lua_state_machine i,
      outcome := .error ⟨1, init_error_out "loading" i⟩ }
  else if i.pcall_ret ≠ 0 then
    { trace := uh_lua_api_ops i.docroot ++ [.loadfile i.lua_handler, .pcall 0 0],
      machine := uh_lua_state_machine i,
      outcome := .error ⟨1, init_error_out "initializing" i⟩ }
  else if i.cb_is_function = false then
    { trace := uh_lua_api_ops i.docroot ++
        [.loadfile i.lua_handler, .pcall 0 0, .getglobal "handle_request"],
      machine := uh_lua_state_machine i,
      outcome := .error ⟨1, ("Error: Lua handler provides no handle_request() callback.\n").toList⟩ }
  else
    { trace := uh_lua_api_ops i.docroot ++
        [.loadfile i.lua_handler, .pcall 0 0, .getglobal "handle_request"],
      machine := uh_lua_state_machine i,
      outcome := .ok () }

/-- The inputs `lua_main` depends on: the two conf strings, the request
url, the process variables, the request HTTP version, and the outcome of
the `lua_pcall` of `handle_request` (status code plus, on failure, the
error object as the string `luaL_checkstring` yields, `pi->phys` and
`strerror(errno)` used by the printf). -/
structure MainInput where
  lua_prefix_str : List Char
  url : List Char
  vars : List env_var
  version : Nat
  pcall_ret : Nat
  err_obj : List Char
  phys : List Char
  errno_str : List Char

/-- Result of `lua_main`: the Lua API trace, the request environment
table, `pi->query`, the bytes written to stdout, and the exit status. -/
structure MainResult where
  trace : List LuaOp
  env : EnvT
  query : Option (List Char)
  out : List Char
  exit_code : Nat

/-- The number `0.9 + version / 10.0` pushed for HTTP_VERSION
(lua.c line 227), as an exact rational. -/
def http_version_num (v : Nat) : Rat := 9 / 10 + (v : Rat) / 10

/-- One iteration of the `get_process_vars` loop (lua.c lines 219-225):
entries with a NULL value are skipped, the rest are pushed as strings. -/
def var_loop (acc : List LuaOp × EnvT) (v : env_var) : List LuaOp × EnvT :=
  match v.value with
  | none => acc
  | some s => (acc.1 ++ [.pushstring s, .setfield (-2) v.name], tset acc.2 v.name (.str s))

/-- The path portion of the request url: `strlen(url)` characters, or up
to the first '?' when `strchr(url, '?')` finds one (lua.c lines 207-212). -/
def url_path_part (inp : MainInput) : List Char :=
  inp.url.takeWhile (fun c => c != '?')

/-- The suffix of the url from the first '?' on, stored into `pi->query`
when present (lua.c lines 208-211). -/
def url_query_part (inp : MainInput) : List Char :=
  inp.url.dropWhile (fun c => c != '?')

/-- The PATH_INFO step (lua.c lines 213-217): when the path portion is
longer than `conf.lua_prefix`, push `url + prefix_len` for
`path_len - prefix_len` bytes and store it under PATH_INFO. Returns the
ops performed and the table contents so far. -/
def path_info_step (inp : MainInput) : List LuaOp × EnvT :=
  if inp.lua_prefix_str.length < (url_path_part inp).length then
    ([.pushlstring ((inp.url.drop inp.lua_prefix_str.length).take
        ((url_path_part inp).length - inp.lua_prefix_str.length)),
      .setfield (-2) "PATH_INFO"],
     tset [] "PATH_INFO" (.str ((inp.url.drop inp.lua_prefix_str.length).take
        ((url_path_part inp).length - inp.lua_prefix_str.length))))
  else ([], [])

/-- Ops and table contents after the `get_process_vars` loop
(lua.c lines 219-225). -/
def env_pair (inp : MainInput) : List LuaOp × EnvT :=
  inp.vars.foldl var_loop (path_info_step inp)

/-- All environment-building ops of `lua_main`, ending with the
HTTP_VERSION entry (lua.c lines 227-228). -/
def lua_main_envops (inp : MainInput) : List LuaOp :=
  (env_pair inp).1 ++
  [.pushnumber (http_version_num inp.version), .setfield (-2) "HTTP_VERSION"]

/-- The finished per-request environment table. -/
def lua_main_env (inp : MainInput) : EnvT :=
  tset (env_pair inp).2 "HTTP_VERSION" (.num (http_version_num inp.version))

/-- Stdout bytes of `lua_main`: the 500 response printed when the
protected call failed with LUA_ERRMEM or LUA_ERRRUN (lua.c lines 230-240),
nothing otherwise. The adjacent C string literals of the printf appear
concatenated, with `pi->phys` and `strerror(errno)` substituted. -/
def lua_main_out (inp : MainInput) : List Char :=
  if inp.pcall_ret = LUA_ERRMEM ∨ inp.pcall_ret = LUA_ERRRUN then
    ("Status: 500 Internal Server Error\r\n\r\n").toList ++
    ("Unable to launch the requested Lua program:\n").toList ++
    ("  ").toList ++ inp.phys ++ (": ").toList ++ inp.errno_str ++ ("\n").toList
  else []

/-- Model of `lua_main` (lua.c lines 193-243): fetch `handle_request`, build the
per-request environment table (PATH_INFO from the url, the process
variables, HTTP_VERSION), call it protected with one argument and zero
results, print a 500 response on LUA_ERRRUN/LUA_ERRMEM, and exit 0.
The C also runs `error = luaL_checkstring(L, -1)` on failure (modelled by
`err_obj`); that value is not used by the printf. -/
def lua_main (inp : MainInput) : MainResult :=
  { trace := .getglobal "handle_request" :: .newtable :: (lua_main_envops inp ++ [.pcall 1 0]),
    env := lua_main_env inp,
    query := if (url_query_part inp).isEmpty then none else some (url_query_part inp),
    out := lua_main_out inp,
    exit_code := 0 }

/-- Symbolic name of the URL-match predicate of `lua_dispatch`. -/
inductive CheckFn where
  | check_lua_url
deriving DecidableEq

/-- Symbolic name of the request callback of `lua_dispatch`. -/
inductive HandlerFn where
  | lua_handle_request
deriving DecidableEq

/-- Symbolic name of the callback handed to `ops->create_process`. -/
inductive HandlerCb where
  | lua_main
deriving DecidableEq

/-- A `struct dispatch_handler` (plugin ABI): URL predicate plus
request callback. -/
structure dispatch_handler where
  check_url : CheckFn
  handle_request : HandlerFn
deriving DecidableEq

/-- The single handler this plugin defines (lua.c lines 264-267). -/
def lua_dispatch : dispatch_handler :=
  { check_url := .check_lua_url, handle_request := .lua_handle_request }

/-- Model of `check_lua_url` (lua.c lines 259-262), parameterized by the host
server's `ops->path_match` and by `conf.lua_prefix`. -/
def check_lua_url (path_match : List Char → List Char → Bool)
    (prefix_cfg url : List Char) : Bool :=
  path_match prefix_cfg url

/-- The client-visible actions `lua_handle_request` can perform. -/
inductive ClientAction where
  | create_process (name phys url : List Char) (cb : HandlerCb)
  | client_error (status : Nat) (summary : List Char) (message : List Char)

/-- Model of `lua_handle_request` (lua.c lines 245-257): point `pi` at the static
`_pi` with `name = conf.lua_prefix`, `phys = conf.lua_handler`, spawn the
CGI process around `lua_main`, and on failure report a 500 through
`ops->client_error`. `create_ok` is the return of `ops->create_process`. -/
def lua_handle_request (prefix_cfg handler_path url : List Char)
    (create_ok : Bool) (errno_str : List Char) : List ClientAction :=
  let spawn := ClientAction.create_process prefix_cfg handler_path url .lua_main
  if create_ok then [spawn]
  else [spawn,
        .client_error 500 ("Internal Server Error").toList
          (("Failed to create CGI process: ").toList ++ errno_str)]

/-- Model of `lua_plugin_init` (lua.c lines 269-276): run `uh_lua_state_init`
(which exits on failure), register `lua_dispatch`, and return 0. The
success value is the list of handlers passed to `ops->dispatch_add`
together with the return value. -/
def lua_plugin_init (i : InitInput) : Except ExitInfo (List dispatch_handler × Int) :=
  match (uh_lua_state_init i).outcome with
  | .error e => .error e
  | .ok _ => .ok ([lua_dispatch], 0)

/-- A concrete request: url equal to the prefix, no process variables,
HTTP/1.0, successful protected call. -/
def sampleReq : MainInput :=
  { lua_prefix_str := ("/lua").toList, url := ("/lua").toList, vars := [], version := 1,
    pcall_ret := 0, err_obj := [], phys := [], errno_str := [] }

/-- A concrete request whose url has extra path and a query string. -/
def sampleReqPath : MainInput :=
  { lua_prefix_str := ("/lua").toList, url := ("/lua/x?a=1").toList, vars := [], version := 2,
    pcall_ret := 0, err_obj := [], phys := [], errno_str := [] }

/-- A concrete request whose protected call failed with a runtime error. -/
def sampleReqErr : MainInput :=
  { lua_prefix_str := ("/lua").toList, url := ("/lua").toList, vars := [], version := 1,
    pcall_ret := LUA_ERRRUN, err_obj := ("boom").toList, phys := ("/h.lua").toList,
    errno_str := ("No such file or directory").toList }

/-- A concrete configuration where `luaL_loadfile` failed. -/
def sampleInitFail : InitInput :=
  { docroot := ("/www").toList, lua_handler := ("/h.lua").toList, loadfile_ret := 1,
    pcall_ret := 0, err_is_nil := true, err_msg := [], cb_is_function := true }

/-- A concrete configuration where initialization succeeds. -/
def sampleInitOk : InitInput :=
  { docroot := ("/www").toList, lua_handler := ("/h.lua").toList, loadfile_ret := 0,
    pcall_ret := 0, err_is_nil := true, err_msg := [], cb_is_function := true }

/-! Helper lemmas about the table operations. -/

theorem tget_tset (e : EnvT) (k k' : String) (v : LuaVal) :
    tget (tset e k v) k' = if k' = k then some v else tget e k' := by
  induction e with
  | nil =>
    by_cases h : k' = k
    · simp [tset, tget, h]
    · simp [tset, tget, h, Ne.symm h]
  | cons hd tl ih =>
    obtain ⟨k₀, v₀⟩ := hd
    by_cases h0 : k₀ = k
    · subst h0
      by_cases h1 : k' = k₀
      · simp [tset, tget, h1]
      · have h2 : ¬ (k₀ = k') := fun hc => h1 hc.symm
        simp [tset, tget, h1, h2]
    · by_cases h1 : k₀ = k'
      · have h2 : ¬ (k' = k) := fun hc => h0 (h1.trans hc)
        simp [tset, tget, h0, h1, h2]
      · simp [tset, tget, h0, h1, ih]

theorem mem_tset_cases {e : EnvT} {k : String} {v : LuaVal} {kv : String × LuaVal}
    (h : kv ∈ tset e k v) : kv = (k, v) ∨ kv ∈ e := by
  induction e with
  | nil => simp [tset] at h; exact Or.inl h
  | cons hd tl ih =>
    obtain ⟨k₀, v₀⟩ := hd
    by_cases h0 : k₀ = k <;> simp [tset, h0] at h
    · rcases h with h | h
      · exact Or.inl (by simp [h])
      · exact Or.inr (List.mem_cons_of_mem _ h)
    · rcases h with h | h
      · exact Or.inr (by simp [h])
      · rcases ih h with h' | h'
        · exact Or.inl h'
        · exact Or.inr (List.mem_cons_of_mem _ h')

theorem keys_tset_sub {e : EnvT} {k : String} {v : LuaVal} {a : String}
    (h : a ∈ (tset e k v).map Prod.fst) : a = k ∨ a ∈ e.map Prod.fst := by
  simp only [List.mem_map] at h
  obtain ⟨kv, hkv, hfst⟩ := h
  rcases mem_tset_cases hkv with h' | h'
  · left; rw [← hfst, h']
  · right; exact List.mem_map.mpr ⟨kv, h', hfst⟩

theorem tset_keys_nodup {e : EnvT} {k : String} {v : LuaVal}
    (h : (e.map Prod.fst).Nodup) : ((tset e k v).map Prod.fst).Nodup := by
  induction e with
  | nil => simp [tset]
  | cons hd tl ih =>
    obtain ⟨k₀, v₀⟩ := hd
    simp only [List.map_cons, List.nodup_cons] at h
    by_cases h0 : k₀ = k
    · subst h0
      have ht : tset ((k₀, v₀) :: tl) k₀ v = (k₀, v) :: tl := by simp [tset]
      rw [ht]
      simp only [List.map_cons, List.nodup_cons]
      exact ⟨h.1, h.2⟩
    · have ht : tset ((k₀, v₀) :: tl) k v = (k₀, v₀) :: tset tl k v := by simp [tset, h0]
      rw [ht]
      simp only [List.map_cons, List.nodup_cons]
      refine ⟨fun hc => ?_, ih h.2⟩
      rcases keys_tset_sub hc with h' | h'
      · exact h0 h'
      · exact h.1 h'

theorem mem_tset_nodup {e : EnvT} {k : String} {v : LuaVal} {kv : String × LuaVal}
    (hnd : (e.map Prod.fst).Nodup) (h : kv ∈ tset e k v) :
    kv = (k, v) ∨ (kv ∈ e ∧ kv.1 ≠ k) := by
  induction e with
  | nil => simp [tset] at h; exact Or.inl h
  | cons hd tl ih =>
    obtain ⟨k₀, v₀⟩ := hd
    simp only [List.map_cons, List.nodup_cons] at hnd
    by_cases h0 : k₀ = k <;> simp [tset, h0] at h
    · rcases h with h | h
      · exact Or.inl (by simp [h])
      · refine Or.inr ⟨List.mem_cons_of_mem _ h, fun hc => ?_⟩
        exact (h0 ▸ hnd.1) (hc ▸ List.mem_map.mpr ⟨kv, h, rfl⟩)
    · rcases h with h | h
      · exact Or.inr ⟨by simp [h], by simp [h]; exact h0⟩
      · rcases ih hnd.2 h with h' | h'
        · exact Or.inl h'
        · exact Or.inr ⟨List.mem_cons_of_mem _ h'.1, h'.2⟩

/-! Helper lemmas about the `get_process_vars` loop. -/

theorem var_fold_ops_mem :
    ∀ (vars : List env_var) (acc : List LuaOp × EnvT) (op : LuaOp),
      op ∈ (vars.foldl var_loop acc).1 → op ∈ acc.1 ∨ isEnvBuildOp op = true := by
  intro vars
  induction vars with
  | nil => intro acc op h; exact Or.inl h
  | cons v vs ih =>
    intro acc op h
    rcases ih (var_loop acc v) op h with h1 | h1
    · cases hv : v.value with
      | none => exact Or.inl (by simpa [var_loop, hv] using h1)
      | some s =>
        simp only [var_loop, hv, List.mem_append, List.mem_cons,
          List.mem_singleton, List.not_mem_nil, or_false] at h1
        rcases h1 with h1 | h1 | h1
        · exact Or.inl h1
        · subst h1; exact Or.inr rfl
        · subst h1; exact Or.inr rfl
    · exact Or.inr h1

theorem var_fold_env_mem :
    ∀ (vars : List env_var) (acc : List LuaOp × EnvT) (kv : String × LuaVal),
      kv ∈ (vars.foldl var_loop acc).2 → kv ∈ acc.2 ∨ LuaVal.isStr kv.2 = true := by
  intro vars
  induction vars with
  | nil => intro acc kv h; exact Or.inl h
  | cons v vs ih =>
    intro acc kv h
    rcases ih (var_loop acc v) kv h with h1 | h1
    · cases hv : v.value with
      | none => exact Or.inl (by simpa [var_loop, hv] using h1)
      | some s =>
        simp only [var_loop, hv] at h1
        rcases mem_tset_cases h1 with h2 | h2
        · exact Or.inr (by simp [h2, LuaVal.isStr])
        · exact Or.inl h2
    · exact Or.inr h1

theorem var_fold_keys_nodup :
    ∀ (vars : List env_var) (acc : List LuaOp × EnvT),
      ((acc.2.map Prod.fst).Nodup) → (((vars.foldl var_loop acc).2.map Prod.fst)).Nodup := by
  intro vars
  induction vars with
  | nil => intro acc h; exact h
  | cons v vs ih =>
    intro acc h
    refine ih (var_loop acc v) ?_
    cases hv : v.value with
    | none => simpa [var_loop, hv] using h
    | some s => simpa [var_loop, hv] using tset_keys_nodup h

theorem var_fold_tget :
    ∀ (vars : List env_var) (acc : List LuaOp × EnvT) (key : String),
      (∀ v ∈ vars, v.name ≠ key) →
      tget (vars.foldl var_loop acc).2 key = tget acc.2 key := by
  intro vars
  induction vars with
  | nil => intro acc key _; rfl
  | cons v vs ih =>
    intro acc key hk
    have h1 : tget (vs.foldl var_loop (var_loop acc v)).2 key = tget (var_loop acc v).2 key :=
      ih _ key (fun w hw => hk w (List.mem_cons_of_mem _ hw))
    rw [List.foldl_cons, h1]
    cases hv : v.value with
    | none => simp [var_loop, hv]
    | some s =>
      simp only [var_loop, hv]
      rw [tget_tset]
      simp [Ne.symm (hk v (List.mem_cons_self _ _))]

/-! Helper lemmas about the read loop of `uh_lua_recv`. -/

theorem recvLoop_pos_eq :
    ∀ (evs : List ReadEvent) (n m : Int) (acc : List Char) (d : Int),
      0 < n → 0 < m → recvLoop n acc d evs = recvLoop m acc d evs := by
  intro evs
  induction evs with
  | nil => intro n m acc d hn hm; simp [recvLoop, hn, hm]
  | cons ev evs ih =>
    intro n m acc d hn hm
    cases ev with
    | data bytes =>
      simp only [recvLoop, if_pos hn, if_pos hm]
      by_cases h0 : bytes.length = 0
      · simp [h0]
      · by_cases hb : bytes.length = LUAL_BUFFERSIZE
        · simp [h0, hb, ih _ _ _ _ hn hm]
        · simp [h0, hb]
    | err e p =>
      simp only [recvLoop, if_pos hn, if_pos hm]
      by_cases hr : retryable (.err e p) = true
      · simp [hr, ih _ _ _ _ hn hm]
      · simp [hr]

theorem recvLoop_nonpos (evs : List ReadEvent) (len : Int) (acc : List Char) (d : Int)
    (h : ¬ 0 < len) : recvLoop len acc d evs = some (acc, d) := by
  cases evs <;> simp [recvLoop, h]

theorem recvLoop_char :
    ∀ (evs : List ReadEvent) (len : Int) (acc : List Char) (res : List Char × Int),
      0 < len → recvLoop len acc (acc.length : Int) evs = some res →
      ((evs.dropWhile retryable).head? = none → False)
      ∧ (∀ bytes, (evs.dropWhile retryable).head? = some (.data bytes) → bytes.length = 0 →
          res = (acc, (acc.length : Int)))
      ∧ (∀ bytes, (evs.dropWhile retryable).head? = some (.data bytes) → bytes.length ≠ 0 →
          ∃ extra, extra ≠ [] ∧ res = (acc ++ extra, ((acc ++ extra).length : Int)))
      ∧ (∀ e p, (evs.dropWhile retryable).head? = some (.err e p) →
          (acc = [] → res = ([], -1)) ∧ (acc ≠ [] → res = (acc, (acc.length : Int)))) := by
  intro evs
  induction evs with
  | nil =>
    intro len acc res hlen hres
    simp [recvLoop, hlen] at hres
  | cons ev evs ih =>
    intro len acc res hlen hres
    cases ev with
    | data bytes =>
      simp only [recvLoop, if_pos hlen] at hres
      have hdw : ((ReadEvent.data bytes :: evs).dropWhile retryable).head?
          = some (.data bytes) := by
        simp [List.dropWhile_cons, retryable]
      rw [hdw]
      by_cases h0 : bytes.length = 0
      · rw [if_pos h0] at hres
        refine ⟨by simp, ?_, ?_, ?_⟩
        · intro bytes' hb _
          exact (Option.some_injective _ hres).symm
        · intro bytes' hb hne
          exact absurd ((Option.some.injEq _ _).mp hb) (by
            intro he
            exact hne (by rw [← (ReadEvent.data.injEq _ _).mp he.symm] at h0; exact h0))
        · intro e p hb; simp at hb
      · by_cases hB : bytes.length = LUAL_BUFFERSIZE
        · rw [if_neg h0, if_pos hB] at hres
          have hcast : ((acc.length : Int) + (bytes.length : Int))
              = (((acc ++ bytes).length : Nat) : Int) := by
            simp [List.length_append]
          rw [hcast] at hres
          have IH := ih len (acc ++ bytes) res hlen hres
          have hbne : bytes ≠ [] := fun hc => h0 (by simp [hc])
          refine ⟨fun hc => by simp at hc, ?_, ?_, fun e p hc => by simp at hc⟩
          · intro bytes' hb hz
            exact absurd ((ReadEvent.data.injEq _ _).mp ((Option.some.injEq _ _).mp hb)).symm
              (fun he => h0 (he ▸ hz))
          · intro bytes' hb _
            cases hh : (evs.dropWhile retryable).head? with
            | none => exact absurd hh IH.1
            | some ev2 =>
              cases ev2 with
              | data bytes2 =>
                by_cases h2 : bytes2.length = 0
                · refine ⟨bytes, hbne, ?_⟩
                  simpa using IH.2.1 bytes2 hh h2
                · obtain ⟨extra2, hne2, hres2⟩ := IH.2.2.1 bytes2 hh h2
                  refine ⟨bytes ++ extra2, by simp [hbne], ?_⟩
                  simpa [List.append_assoc] using hres2
              | err e p =>
                refine ⟨bytes, hbne, ?_⟩
                have := (IH.2.2.2 e p hh).2 (by simp [hbne])
                simpa using this
        · rw [if_neg h0, if_neg hB] at hres
          have hbne : bytes ≠ [] := fun hc => h0 (by simp [hc])
          refine ⟨fun hc => by simp at hc, ?_, ?_, fun e p hc => by simp at hc⟩
          · intro bytes' hb hz
            exact absurd ((ReadEvent.data.injEq _ _).mp ((Option.some.injEq _ _).mp hb)).symm
              (fun he => h0 (he ▸ hz))
          · intro bytes' _ _
            refine ⟨bytes, hbne, ?_⟩
            have : res = (acc ++ bytes, (acc.length : Int) + (bytes.length : Int)) :=
              (Option.some_injective _ hres).symm
            rw [this]
            simp [List.length_append]
    | err e p =>
      simp only [recvLoop, if_pos hlen] at hres
      by_cases hr : retryable (.err e p) = true
      · have hdw : (ReadEvent.err e p :: evs).dropWhile retryable
            = evs.dropWhile retryable := by
          simp [List.dropWhile_cons, hr]
        rw [hdw]
        rw [if_pos hr] at hres
        exact ih len acc res hlen hres
      · have hdw : ((ReadEvent.err e p :: evs).dropWhile retryable).head?
            = some (.err e p) := by
          simp [List.dropWhile_cons, hr]
        rw [hdw]
        rw [if_neg hr] at hres
        refine ⟨fun hc => by simp at hc,
          fun bytes hb _ => by simp at hb,
          fun bytes hb _ => by simp at hb, ?_⟩
        intro e' p' _
        constructor
        · intro hacc
          subst hacc
          simpa using (Option.some_injective _ hres).symm
        · intro hacc
          have hlz : ¬ ((List.length acc : Int) = 0) := by
            simpa using fun hc => hacc (List.length_eq_zero.mp hc)
          rw [if_neg hlz] at hres
          exact (Option.some_injective _ hres).symm

/-! Remaining shared helper lemmas. -/

theorem takeWhile_take {α : Type} (l : List α) (p : α → Bool) :
    l.take (l.takeWhile p).length = l.takeWhile p := by
  have h := @List.take_left' _ (l.takeWhile p) (l.dropWhile p) ((l.takeWhile p).length) rfl
  rw [List.takeWhile_append_dropWhile] at h
  exact h

theorem takeWhile_drop_eq {α : Type} (l : List α) (p : α → Bool) (n : Nat) :
    (l.takeWhile p).drop n = (l.drop n).take ((l.takeWhile p).length - n) := by
  conv_lhs => rw [← takeWhile_take l p]
  rw [List.drop_take]

theorem init_machine_eq (i : InitInput) :
    (uh_lua_state_init i).machine = uh_lua_state_machine i := by
  unfold uh_lua_state_init
  split
  · rfl
  · split
    · rfl
    · split <;> rfl

theorem path_info_keys_nodup (inp : MainInput) :
    (((path_info_step inp).2.map Prod.fst)).Nodup := by
  unfold path_info_step
  split <;> simp [tset]

theorem path_info_env_str (inp : MainInput) {kv : String × LuaVal}
    (h : kv ∈ (path_info_step inp).2) : LuaVal.isStr kv.2 = true := by
  unfold path_info_step at h
  split at h
  · simp [tset] at h
    rw [h]
    rfl
  · simp at h

theorem path_info_ops_build (inp : MainInput) {op : LuaOp}
    (h : op ∈ (path_info_step inp).1) : isEnvBuildOp op = true := by
  unfold path_info_step at h
  split at h
  · simp at h
    rcases h with h | h <;> rw [h] <;> rfl
  · simp at h

theorem envops_all_build (inp : MainInput) :
    ∀ op ∈ lua_main_envops inp, isEnvBuildOp op = true := by
  intro op hop
  unfold lua_main_envops at hop
  rcases List.mem_append.mp hop with h | h
  · rcases var_fold_ops_mem inp.vars (path_info_step inp) op h with h' | h'
    · exact path_info_ops_build inp h'
    · exact h'
  · simp only [List.mem_cons, List.mem_singleton, List.not_mem_nil, or_false] at h
    rcases h with h | h <;> rw [h] <;> rfl

theorem envBuild_not_pcall {op : LuaOp} (h : isEnvBuildOp op = true) :
    isPcallOp op = false := by
  cases op <;> first | rfl | simp [isEnvBuildOp] at h

theorem envBuild_not_loadfile {op : LuaOp} (h : isEnvBuildOp op = true) :
    isLoadfileOp op = false := by
  cases op <;> first | rfl | simp [isEnvBuildOp] at h

theorem envops_countP_pcall (inp : MainInput) :
    (lua_main_envops inp).countP isPcallOp = 0 := by
  rw [List.countP_eq_zero]
  intro op hop
  simp [envBuild_not_pcall (envops_all_build inp op hop)]

theorem envops_countP_loadfile (inp : MainInput) :
    (lua_main_envops inp).countP isLoadfileOp = 0 := by
  rw [List.countP_eq_zero]
  intro op hop
  simp [envBuild_not_loadfile (envops_all_build inp op hop)]

theorem env_pair_keys_nodup (inp : MainInput) :
    (((env_pair inp).2.map Prod.fst)).Nodup :=
  var_fold_keys_nodup inp.vars (path_info_step inp) (path_info_keys_nodup inp)

theorem env_pair_str (inp : MainInput) {kv : String × LuaVal}
    (h : kv ∈ (env_pair inp).2) : LuaVal.isStr kv.2 = true := by
  rcases var_fold_env_mem inp.vars (path_info_step inp) kv h with h' | h'
  · exact path_info_env_str inp h'
  · exact h'

/-! Claim theorems. -/

/-- C1: for every configuration, a failure of `luaL_loadfile`, of the
initialization `lua_pcall`, or a missing `handle_request` function makes
state initialization terminate the process with exit status 1; and for
every request whose `handle_request` invocation fails with LUA_ERRRUN or
LUA_ERRMEM, the plugin's stdout response begins with
"Status: 500 Internal Server Error". -/
theorem C1_init_exit_and_request_500 :
    (∀ i : InitInput, (i.loadfile_ret ≠ 0 ∨ i.pcall_ret ≠ 0 ∨ i.cb_is_function = false) →
      ∃ e, (uh_lua_state_init i).outcome = Except.error e ∧ e.code = 1)
    ∧ (∀ inp : MainInput, (inp.pcall_ret = LUA_ERRRUN ∨ inp.pcall_ret = LUA_ERRMEM) →
      ∃ rest, (lua_main inp).out = ("Status: 500 Internal Server Error").toList ++ rest) := by
  constructor
  · intro i h
    unfold uh_lua_state_init
    split
    · exact ⟨_, rfl, rfl⟩
    · split
      · exact ⟨_, rfl, rfl⟩
      · split
        · exact ⟨_, rfl, rfl⟩
        · rcases h with h | h | h <;> simp_all
  · intro inp h
    have hof : (lua_main inp).out = lua_main_out inp := rfl
    rw [hof]
    unfold lua_main_out
    rw [if_pos (Or.symm h)]
    exact ⟨("\r\n\r\n").toList ++ ("Unable to launch the requested Lua program:\n").toList ++
      ("  ").toList ++ inp.phys ++ (": ").toList ++ inp.errno_str ++ ("\n").toList, rfl⟩

/-- C1 witness: both failure paths at concrete inputs. -/
theorem C1_witness :
    (∃ e, (uh_lua_state_init sampleInitFail).outcome = Except.error e ∧ e.code = 1)
    ∧ (∃ rest,
        (lua_main sampleReqErr).out = ("Status: 500 Internal Server Error").toList ++ rest) :=
  ⟨C1_init_exit_and_request_500.1 sampleInitFail (Or.inl (by decide)),
   C1_init_exit_and_request_500.2 sampleReqErr (Or.inl rfl)⟩

/-- C2 (amended): every entry of the per-request environment table has a
string key; every entry other than HTTP_VERSION maps to a string value,
while the HTTP_VERSION entry maps to the Lua number 0.9 + version/10
pushed by `lua_pushnumber` (lua.c line 227). -/
theorem C2_env_entry_types :
    ∀ (inp : MainInput) (kv : String × LuaVal), kv ∈ (lua_main inp).env →
      (kv.1 = "HTTP_VERSION" → kv.2 = .num (http_version_num inp.version))
      ∧ (kv.1 ≠ "HTTP_VERSION" → LuaVal.isStr kv.2 = true) := by
  intro inp kv hkv
  have henv : (lua_main inp).env
      = tset (env_pair inp).2 "HTTP_VERSION" (.num (http_version_num inp.version)) := rfl
  rw [henv] at hkv
  rcases mem_tset_nodup (env_pair_keys_nodup inp) hkv with h | ⟨hmem, hne⟩
  · constructor
    · intro _; rw [h]
    · intro hne; exact absurd (by rw [h]) hne
  · constructor
    · intro h1; exact absurd h1 hne
    · intro _; exact env_pair_str inp hmem

/-- C2 counterexample: at a concrete request, not every entry of the
environment table maps to a string value (HTTP_VERSION is a number). -/
theorem C2_counterexample :
    ¬ (∀ kv ∈ (lua_main sampleReq).env, LuaVal.isStr kv.2 = true) := by
  intro h
  have hmem : ("HTTP_VERSION", LuaVal.num (http_version_num 1)) ∈ (lua_main sampleReq).env := by
    have he : (lua_main sampleReq).env = [("HTTP_VERSION", LuaVal.num (http_version_num 1))] :=
      rfl
    rw [he]
    exact List.mem_singleton.mpr rfl
  have := h _ hmem
  simp [LuaVal.isStr] at this

/-- C2 witness: the amended claim evaluated at a concrete request. -/
theorem C2_witness :
    ((("HTTP_VERSION" : String), LuaVal.num (http_version_num 1)).1 = "HTTP_VERSION" →
      (("HTTP_VERSION" : String), LuaVal.num (http_version_num 1)).2
        = .num (http_version_num sampleReq.version))
    ∧ ((("HTTP_VERSION" : String), LuaVal.num (http_version_num 1)).1 ≠ "HTTP_VERSION" →
      LuaVal.isStr (("HTTP_VERSION" : String), LuaVal.num (http_version_num 1)).2 = true) :=
  C2_env_entry_types sampleReq ("HTTP_VERSION", LuaVal.num (http_version_num 1)) (by
    have he : (lua_main sampleReq).env = [("HTTP_VERSION", LuaVal.num (http_version_num 1))] :=
      rfl
    rw [he]
    exact List.mem_singleton.mpr rfl)

/-- C3: plugin initialization registers exactly one dispatch handler,
pairing `check_lua_url` with `lua_handle_request`, and returns 0; and for
every request, `lua_main` performs exactly one `lua_pcall` of the
`handle_request` callback and terminates with exit status 0, whether that
call succeeds or fails. -/
theorem C3_single_handler_one_shot :
    (∀ (i : InitInput) (r : List dispatch_handler × Int), lua_plugin_init i = .ok r →
      r = ([lua_dispatch], 0)
      ∧ lua_dispatch.check_url = CheckFn.check_lua_url
      ∧ lua_dispatch.handle_request = HandlerFn.lua_handle_request)
    ∧ (∀ inp : MainInput,
        (lua_main inp).exit_code = 0 ∧ ((lua_main inp).trace.countP isPcallOp) = 1) := by
  constructor
  · intro i r h
    unfold lua_plugin_init at h
    cases ho : (uh_lua_state_init i).outcome with
    | error e => rw [ho] at h; exact absurd h (by simp)
    | ok u =>
      rw [ho] at h
      simp only [Except.ok.injEq] at h
      exact ⟨h.symm, rfl, rfl⟩
  · intro inp
    refine ⟨rfl, ?_⟩
    have htr : (lua_main inp).trace
        = .getglobal "handle_request" :: .newtable :: (lua_main_envops inp ++ [.pcall 1 0]) :=
      rfl
    rw [htr, List.countP_cons, List.countP_cons, List.countP_append, envops_countP_pcall]
    rfl

/-- C3 witness: successful initialization at a concrete configuration. -/
theorem C3_witness :
    (([lua_dispatch], (0 : Int)) = ([lua_dispatch], 0))
    ∧ lua_dispatch.check_url = CheckFn.check_lua_url
    ∧ lua_dispatch.handle_request = HandlerFn.lua_handle_request :=
  C3_single_handler_one_shot.1 sampleInitOk ([lua_dispatch], 0) rfl

/-- C4: the plugin claims a URL exactly when the host server's
`ops->path_match` accepts it for `conf.lua_prefix`: `check_lua_url` is
extensionally the partial application of `path_match` to the prefix. -/
theorem C4_check_url_is_path_match :
    ∀ (path_match : List Char → List Char → Bool) (prefix_cfg url : List Char),
      check_lua_url path_match prefix_cfg url = path_match prefix_cfg url :=
  fun _ _ _ => rfl

/-- C5: per dispatched request, `lua_main`'s Lua API trace is exactly:
fetch the `handle_request` callback, create a fresh table, populate it
(only push/setfield ops), and invoke one protected call with one argument
and zero expected results; no `luaL_loadfile` happens per request, while
state initialization performs exactly one. -/
theorem C5_request_order_single_load :
    ∀ (inp : MainInput) (i : InitInput),
      ((lua_main inp).trace
        = .getglobal "handle_request" :: .newtable :: (lua_main_envops inp ++ [.pcall 1 0]))
      ∧ (∀ op ∈ lua_main_envops inp, isEnvBuildOp op = true)
      ∧ ((lua_main inp).trace.countP isLoadfileOp = 0)
      ∧ ((uh_lua_state_init i).trace.countP isLoadfileOp = 1) := by
  intro inp i
  refine ⟨rfl, envops_all_build inp, ?_, ?_⟩
  · have htr : (lua_main inp).trace
        = .getglobal "handle_request" :: .newtable :: (lua_main_envops inp ++ [.pcall 1 0]) :=
      rfl
    rw [htr, List.countP_cons, List.countP_cons, List.countP_append, envops_countP_loadfile]
    rfl
  · have h0 : (uh_lua_api_ops i.docroot).countP isLoadfileOp = 0 := rfl
    unfold uh_lua_state_init
    split
    · rw [List.countP_append, h0]; rfl
    · split
      · rw [List.countP_append, h0]; rfl
      · split <;> (rw [List.countP_append, h0]; rfl)

/-- C5 witness: a concrete environment-building op of a concrete request,
and the single-load count at a concrete configuration. -/
theorem C5_witness :
    isEnvBuildOp (.pushnumber (http_version_num 1)) = true
    ∧ ((uh_lua_state_init sampleInitOk).trace.countP isLoadfileOp = 1) :=
  ⟨(C5_request_order_single_load sampleReq sampleInitOk).2.1
      (.pushnumber (http_version_num 1))
      (by
        have he : lua_main_envops sampleReq
            = [.pushnumber (http_version_num 1), .setfield (-2) "HTTP_VERSION"] := rfl
        rw [he]
        exact List.mem_cons_self _ _),
   (C5_request_order_single_load sampleReq sampleInitOk).2.2.2⟩

/-- C6: when `ops->create_process` returns false, `lua_handle_request`
performs exactly the spawn attempt followed by one `ops->client_error`
with status 500 "Internal Server Error", and nothing else. -/
theorem C6_create_process_failure :
    ∀ (prefix_cfg handler_path url errno_str : List Char) (ok : Bool), ok = false →
      lua_handle_request prefix_cfg handler_path url ok errno_str
        = [ClientAction.create_process prefix_cfg handler_path url .lua_main,
           ClientAction.client_error 500 ("Internal Server Error").toList
             (("Failed to create CGI process: ").toList ++ errno_str)] := by
  intro p h u e ok hok
  subst hok
  rfl

/-- C6 witness: the failure path at concrete arguments. -/
theorem C6_witness :
    lua_handle_request ("/lua").toList ("/h.lua").toList ("/lua/x").toList false
        ("Cannot allocate memory").toList
      = [ClientAction.create_process ("/lua").toList ("/h.lua").toList ("/lua/x").toList
          .lua_main,
         ClientAction.client_error 500 ("Internal Server Error").toList
           (("Failed to create CGI process: ").toList ++ ("Cannot allocate memory").toList)] :=
  C6_create_process_failure ("/lua").toList ("/h.lua").toList ("/lua/x").toList
    ("Cannot allocate memory").toList false rfl

/-- C7: after state initialization the global `uhttpd` table binds both
"send" and "sendc" to the global `print` function, "recv" to the
`uh_lua_recv` C function (whose read loop consumes only file descriptor
0, STDIN_FILENO), "urldecode" and "urlencode" to the respective
conversion C functions, and "docroot" to the configured docroot string. -/
theorem C7_api_table :
    ∀ i : InitInput, ∃ fs : EnvT,
      tget (uh_lua_state_init i).machine.globals "uhttpd" = some (.table fs)
      ∧ tget fs "send" = some (.cfunction .print)
      ∧ tget fs "sendc" = some (.cfunction .print)
      ∧ tget fs "recv" = some (.cfunction .uh_lua_recv)
      ∧ tget fs "urldecode" = some (.cfunction .uh_lua_urldecode)
      ∧ tget fs "urlencode" = some (.cfunction .uh_lua_urlencode)
      ∧ tget fs "docroot" = some (.str i.docroot)
      ∧ STDIN_FILENO = 0
      ∧ (∀ (fds fds' : Nat → List ReadEvent) (len : Int),
          fds STDIN_FILENO = fds' STDIN_FILENO →
          uh_lua_recv_world fds len = uh_lua_recv_world fds' len) := by
  intro i
  refine ⟨[("send", .cfunction .print), ("sendc", .cfunction .print),
    ("recv", .cfunction .uh_lua_recv), ("urldecode", .cfunction .uh_lua_urldecode),
    ("urlencode", .cfunction .uh_lua_urlencode), ("docroot", .str i.docroot)],
    ?_, rfl, rfl, rfl, rfl, rfl, rfl, rfl, ?_⟩
  · rw [init_machine_eq]
    rfl
  · intro fds fds' len h
    unfold uh_lua_recv_world
    rw [h]

/-- C7 witness: the recv binding only looks at descriptor 0. -/
theorem C7_witness :
    uh_lua_recv_world (fun _ => [ReadEvent.data ['a']]) 1
      = uh_lua_recv_world (fun n => if n = 0 then [ReadEvent.data ['a']] else []) 1 := by
  obtain ⟨fs, h⟩ := C7_api_table sampleInitOk
  exact h.2.2.2.2.2.2.2.2 _ _ 1 rfl

/-- C8: the requested length never limits how much `uh_lua_recv` reads:
the loop behaves identically for any two positive lengths; a read attempt
stops the loop exactly when it is end-of-file, a short read, or a
non-retryable error, and otherwise the loop just continues on the rest of
the trace; consequently recv can return more bytes than requested (two
bytes for a request of one at a concrete trace). -/
theorem C8_len_does_not_limit :
    (∀ (n m : Int) (acc : List Char) (d : Int) (evs : List ReadEvent),
        0 < n → 0 < m → recvLoop n acc d evs = recvLoop m acc d evs)
    ∧ (∀ (n : Int) (acc : List Char) (d : Int) (ev : ReadEvent) (evs : List ReadEvent),
        0 < n →
        (stopsLoop ev = true → ∃ r, recvLoop n acc d (ev :: evs) = some r)
        ∧ (stopsLoop ev = false →
            ∃ acc' d', recvLoop n acc d (ev :: evs) = recvLoop n acc' d' evs))
    ∧ (∃ (s : List Char) (k : Int),
        uh_lua_recv 1 [.data ['a', 'b']] = some [.num (k : Rat), .str s] ∧ 1 < k) := by
  refine ⟨fun n m acc d evs hn hm => recvLoop_pos_eq evs n m acc d hn hm, ?_,
    ⟨['a', 'b'], 2, rfl, by decide⟩⟩
  intro n acc d ev evs hn
  constructor
  · intro hstop
    cases ev with
    | data bytes =>
      simp only [recvLoop, if_pos hn]
      by_cases h0 : bytes.length = 0
      · exact ⟨_, by rw [if_pos h0]⟩
      · have hB : ¬ (bytes.length = LUAL_BUFFERSIZE) := by
          simpa [stopsLoop] using hstop
        exact ⟨_, by rw [if_neg h0, if_neg hB]⟩
    | err e p =>
      have hr : ¬ (retryable (.err e p) = true) := by
        simpa [stopsLoop] using hstop
      simp only [recvLoop, if_pos hn]
      exact ⟨_, by rw [if_neg hr]⟩
  · intro hcont
    cases ev with
    | data bytes =>
      have hB : bytes.length = LUAL_BUFFERSIZE := by
        simpa [stopsLoop] using hcont
      have h0 : ¬ (bytes.length = 0) := by
        rw [hB]; decide
      refine ⟨acc ++ bytes, d + bytes.length, ?_⟩
      simp only [recvLoop, if_pos hn]
      rw [if_neg h0, if_pos hB]
    | err e p =>
      have hr : retryable (.err e p) = true := by
        simpa [stopsLoop] using hcont
      refine ⟨acc, d, ?_⟩
      simp only [recvLoop, if_pos hn]
      rw [if_pos hr]

/-- C8 witness: length-indifference applied at two concrete lengths. -/
theorem C8_witness : recvLoop 2 [] 0 [.data ['a']] = recvLoop 9 [] 0 [.data ['a']] :=
  C8_len_does_not_limit.1 2 9 [] 0 [.data ['a']] (by decide) (by decide)

/-- C9 counterexample: the original claim's two-value return order is
false at a concrete call: one byte was read, so recv returns two values,
but the first returned Lua value is the byte count and the second the
data string, not the other way round (lua.c lines 83-84 reorder the
stack with `lua_pushvalue(L, -2)` and `lua_remove(L, -3)` before
`return 2`). -/
theorem C9_counterexample :
    ¬ (uh_lua_recv 1 [.data ['a', 'b']]
        = some [LuaVal.str ['a', 'b'], LuaVal.num ((2 : Int) : Rat)]) := by
  intro h
  rw [show uh_lua_recv 1 [.data ['a', 'b']]
      = some [LuaVal.num ((2 : Int) : Rat), LuaVal.str ['a', 'b']] from rfl] at h
  have h1 := Option.some_injective _ h
  injection h1 with h2 h3
  exact LuaVal.noConfusion h2

/-- C9 (amended): a call of `uhttpd.recv` with a non-positive length
returns the single number 0; with a positive length, once the loop
finishes, the first non-retried read attempt determines the result:
end-of-file gives the single number 0, a non-retryable error gives the
single number -1, and actual data makes recv return two values, the byte
count first and the (nonempty) accumulated data string second. -/
theorem C9_recv_return_shape :
    ∀ (len : Int) (evs : List ReadEvent),
      (len ≤ 0 → uh_lua_recv len evs = some [.num ((0 : Int) : Rat)])
      ∧ (0 < len → ∀ r, uh_lua_recv len evs = some r →
          ((evs.dropWhile retryable).head? = none → False)
          ∧ (∀ bytes, (evs.dropWhile retryable).head? = some (.data bytes) →
              bytes.length = 0 → r = [.num ((0 : Int) : Rat)])
          ∧ (∀ bytes, (evs.dropWhile retryable).head? = some (.data bytes) →
              bytes.length ≠ 0 →
              ∃ (s : List Char) (k : Int), r = [.num (k : Rat), .str s]
                ∧ s ≠ [] ∧ k = (s.length : Int) ∧ 0 < k)
          ∧ (∀ e p, (evs.dropWhile retryable).head? = some (.err e p) →
              r = [.num ((-1 : Int) : Rat)])) := by
  intro len evs
  constructor
  · intro hle
    unfold uh_lua_recv
    rw [recvLoop_nonpos _ _ _ _ (not_lt.mpr hle)]
    rfl
  · intro hpos r hr
    cases hl : recvLoop len [] 0 evs with
    | none =>
      have hn : uh_lua_recv len evs = none := by unfold uh_lua_recv; rw [hl]
      rw [hn] at hr
      exact absurd hr (by simp)
    | some bd =>
      obtain ⟨buf, d⟩ := bd
      have hre : uh_lua_recv len evs
          = if 0 < d then some [.num (d : Rat), .str buf] else some [.num (d : Rat)] := by
        unfold uh_lua_recv
        rw [hl]
      rw [hre] at hr
      have hchar := recvLoop_char evs len [] (buf, d) hpos (by simpa using hl)
      refine ⟨hchar.1, ?_, ?_, ?_⟩
      · intro bytes hb h0
        have hres := hchar.2.1 bytes hb h0
        simp only [Prod.mk.injEq, List.length_nil, Nat.cast_zero] at hres
        rw [hres.1, hres.2] at hr
        rw [if_neg (by omega : ¬ ((0 : Int) < 0))] at hr
        exact (Option.some_injective _ hr).symm
      · intro bytes hb h0
        obtain ⟨extra, hne, heq⟩ := hchar.2.2.1 bytes hb h0
        simp only [List.nil_append, Prod.mk.injEq] at heq
        rw [heq.1, heq.2] at hr
        have hlz : extra.length ≠ 0 := fun hc => hne (List.length_eq_zero.mp hc)
        have hpos' : (0 : Int) < (extra.length : Int) := by omega
        rw [if_pos hpos'] at hr
        exact ⟨extra, (extra.length : Int), (Option.some_injective _ hr).symm, hne, rfl, hpos'⟩
      · intro e p hb
        have hres := (hchar.2.2.2 e p hb).1 rfl
        simp only [Prod.mk.injEq] at hres
        rw [hres.1, hres.2] at hr
        rw [if_neg (by omega : ¬ ((0 : Int) < -1))] at hr
        exact (Option.some_injective _ hr).symm

/-- C9 witness: the non-positive-length return at a concrete call, and
the single -1 return for a non-retryable error at a concrete positive
call, both through the theorem. -/
theorem C9_witness :
    uh_lua_recv 0 [] = some [LuaVal.num ((0 : Int) : Rat)]
    ∧ (uh_lua_recv 1 [.err .other true]).get (by rfl)
        = [LuaVal.num ((-1 : Int) : Rat)] :=
  ⟨(C9_recv_return_shape 0 []).1 (by decide),
   ((C9_recv_return_shape 1 [.err .other true]).2 (by decide) _
      (Option.some_get _).symm).2.2.2 .other true rfl⟩

/-- C10: the environment table carries a PATH_INFO entry exactly when the
path portion of the url (truncated at the first '?') is strictly longer
than `conf.lua_prefix`, and then it equals that path portion with the
first prefix-length bytes removed; the suffix from the first '?' on is
what `pi->query` records (it starts with '?' and splitting the url there
recovers it), and no '?' ever reaches PATH_INFO. The hypothesis states
that `get_process_vars` yields no variable itself named PATH_INFO. -/
theorem C10_path_info :
    ∀ inp : MainInput, (∀ v ∈ inp.vars, v.name ≠ "PATH_INFO") →
      (tget (lua_main inp).env "PATH_INFO"
        = if inp.lua_prefix_str.length < (url_path_part inp).length
          then some (.str ((url_path_part inp).drop inp.lua_prefix_str.length))
          else none)
      ∧ (∀ q, (lua_main inp).query = some q →
          q.head? = some '?' ∧ url_path_part inp ++ q = inp.url)
      ∧ ((lua_main inp).query = none → url_path_part inp = inp.url)
      ∧ (∀ c ∈ (url_path_part inp).drop inp.lua_prefix_str.length, c ≠ '?') := by
  intro inp hvars
  refine ⟨?_, ?_, ?_, ?_⟩
  · have henv : (lua_main inp).env
        = tset (env_pair inp).2 "HTTP_VERSION" (.num (http_version_num inp.version)) := rfl
    rw [henv, tget_tset]
    rw [if_neg (by decide : ¬ (("PATH_INFO" : String) = "HTTP_VERSION"))]
    have hep : (env_pair inp).2 = (inp.vars.foldl var_loop (path_info_step inp)).2 := rfl
    rw [hep, var_fold_tget inp.vars (path_info_step inp) "PATH_INFO" hvars]
    unfold path_info_step
    by_cases hlt : inp.lua_prefix_str.length < (url_path_part inp).length
    · rw [if_pos hlt, if_pos hlt]
      have hval : (url_path_part inp).drop inp.lua_prefix_str.length
          = (inp.url.drop inp.lua_prefix_str.length).take
              ((url_path_part inp).length - inp.lua_prefix_str.length) :=
        takeWhile_drop_eq inp.url _ _
      rw [hval]
      rfl
    · rw [if_neg hlt, if_neg hlt]
      rfl
  · intro q hq
    have hquery : (lua_main inp).query
        = if (url_query_part inp).isEmpty then none else some (url_query_part inp) := rfl
    rw [hquery] at hq
    by_cases he : (url_query_part inp).isEmpty
    · rw [if_pos he] at hq
      exact absurd hq (by simp)
    · rw [if_neg he] at hq
      have hq' : q = url_query_part inp := (Option.some_injective _ hq).symm
      subst hq'
      constructor
      · have hne : url_query_part inp ≠ [] := by
          simpa [List.isEmpty_iff] using he
        have hmatch := List.head?_dropWhile_not (fun c => c != '?') inp.url
        cases hh : (url_query_part inp).head? with
        | none => exact absurd (List.head?_eq_none_iff.mp hh) hne
        | some c =>
          have hh' : ((inp.url.dropWhile (fun c => c != '?')).head?) = some c := hh
          rw [hh'] at hmatch
          have hc : (c != '?') = false := by simpa using hmatch
          have : c = '?' := by simpa using hc
          rw [this]
      · exact List.takeWhile_append_dropWhile _ _
  · intro hq
    have hquery : (lua_main inp).query
        = if (url_query_part inp).isEmpty then none else some (url_query_part inp) := rfl
    rw [hquery] at hq
    by_cases he : (url_query_part inp).isEmpty
    · have hnil : url_query_part inp = [] := by simpa [List.isEmpty_iff] using he
      have happ := List.takeWhile_append_dropWhile (fun c => c != '?') inp.url
      have happ' : url_path_part inp ++ url_query_part inp = inp.url := happ
      rw [hnil, List.append_nil] at happ'
      exact happ'
    · rw [if_neg he] at hq
      exact absurd hq (by simp)
  · intro c hc
    have hc' := List.mem_of_mem_drop hc
    have hm := List.mem_takeWhile_imp hc'
    simpa using hm

/-- C10 witness: a concrete request with extra path and a query string. -/
theorem C10_witness :
    tget (lua_main sampleReqPath).env "PATH_INFO" = some (.str ("/x").toList)
    ∧ (lua_main sampleReqPath).query = some (("?a=1").toList) := by
  have h := C10_path_info sampleReqPath (by simp [sampleReqPath])
  constructor
  · rw [h.1]
    rfl
  · rfl
